import Mathlib

/-!
Shallow embedding of the KaizenUTN backend RBAC and audit core.

The definitions below are translated from the Python source:
  * apps/authorization/models.py   — Permission, Role
  * apps/authorization/services.py — user_has_permission, get_user_permissions
  * apps/authorization/permissions.py — HasPermission, HasAnyPermission,
    HasAllPermissions gate factories
  * apps/audit/models.py           — BaseAuditLog field set, AuditStatus
  * apps/audit/services.py         — create_audit_entry, log_action, log_failure
  * apps/authorization/management/commands/seed_authorization.py — seed routine
  * apps/users/models.py           — User.role foreign key (on_delete=PROTECT)

Relational rows are lists of records; the database's unique constraints are
carried as hypotheses where a proof needs them.  uuid.uuid4 is modelled as a
fresh-supply counter threaded through the audit service: each draw yields a
value distinct from every earlier draw and distinct from the nil UUID
(version-4 UUIDs are never nil), which is exactly the contract the code
relies on.  A Python function that cannot raise for the inputs under study is
embedded as a total Lean function; a raising operation is embedded with
Except.
-/

namespace Kaizen

/-- Model of `authorization.models.Permission`: atomic capability with a
unique `code`. -/
structure Permission where
  code : String
  description : String
deriving Repr, DecidableEq

/-- Model of `authorization.models.Role`: named bundle of permissions
(many-to-many). -/
structure Role where
  name : String
  permissions : List Permission
deriving Repr, DecidableEq

/-- The principal attributes read by the authorization core
(`users.models.User` plus the attributes Django gives every user object). -/
structure User where
  is_authenticated : Bool
  is_active : Bool
  role : Option Role
deriving Repr, DecidableEq

/-- Model of `authorization.services.user_has_permission`.  Mirrors the Python
guards in order: `user is None`, `not getattr(user, "is_authenticated",
False)`, `not getattr(user, "is_active", False)`, `role is None`, then the
relational existence check `role.permissions.filter(code=permission_code)
.exists()` (exact string equality on `code`, as Postgres `=` on a varchar
column). -/
def user_has_permission (user : Option User) (permission_code : String) : Bool :=
  match user with
  | none => false
  | some u =>
    if !u.is_authenticated then false
    else if !u.is_active then false
    else
      match u.role with
      | none => false
      | some role => role.permissions.any (fun p => p.code == permission_code)

/-- Model of `authorization.services.get_user_permissions`: same guards, then
`list(role.permissions.values_list("code", flat=True))`. -/
def get_user_permissions (user : Option User) : List String :=
  match user with
  | none => []
  | some u =>
    if !u.is_authenticated then []
    else if !u.is_active then []
    else
      match u.role with
      | none => []
      | some role => role.permissions.map (fun p => p.code)

/-- Gate produced by `authorization.permissions.HasAnyPermission(*codes)`: its
`has_permission` method is `any(user_has_permission(request.user, c) for c in
codes)`. -/
def hasAnyPermission (permission_codes : List String) (user : Option User) : Bool :=
  permission_codes.any (fun code => user_has_permission user code)

/-- Gate produced by `authorization.permissions.HasAllPermissions(*codes)`:
its `has_permission` method is `all(user_has_permission(request.user, c) for c
in codes)`. -/
def hasAllPermissions (permission_codes : List String) (user : Option User) : Bool :=
  permission_codes.all (fun code => user_has_permission user code)

/-- Gate produced by `authorization.permissions.HasPermission(code)`:
single-code gate. -/
def hasPermission (permission_code : String) (user : Option User) : Bool :=
  user_has_permission user permission_code

/-- Value of `audit.models.AuditStatus.SUCCESS` (a `TextChoices` string). -/
def AuditStatus.SUCCESS : String := "SUCCESS"

/-- Value of `audit.models.AuditStatus.FAILURE`. -/
def AuditStatus.FAILURE : String := "FAILURE"

/-- A metadata JSON object, modelled as key-value pairs. -/
abbrev Metadata := List (String × String)

/-- A row of a concrete `BaseAuditLog` subclass (`audit.models.BaseAuditLog`
field set).  `model_name` records which concrete table (`audit_model.__name__`)
the row belongs to; `extra` carries the `**extra_fields` of specialized
subclasses; `user` is the nullable actor foreign key (by id); `timestamp` is
the server-assigned `auto_now_add` column; `correlation_id` is a UUID value. -/
structure AuditEntry where
  model_name : String
  user : Option Nat
  action : String
  resource : String
  resource_id : String
  status : String
  metadata : Metadata
  ip_address : Option String
  user_agent : String
  timestamp : Nat
  correlation_id : Nat
  extra : Metadata
deriving DecidableEq

/-- One record emitted on the internal `"audit"` logger by
`logger.exception("audit_write_failed", extra=...)`. -/
structure LogRecord where
  msg : String
  audit_model : String
  action : String
  resource : String
  resource_id : String
  status : String
deriving DecidableEq

/-- Result of one audit-service call: the value returned to the caller (the
saved entry, or `none` after an absorbed `DatabaseError`), the internal log
records emitted, and the UUID fresh-supply state after the call. -/
structure AuditResult where
  returned : Option AuditEntry
  logged : List LogRecord
  uuid_state : Nat
deriving DecidableEq

/-- Model of `audit.services.create_audit_entry`.  `db_fails` says whether
`entry.save()` raises `DatabaseError` (the storage outcome is an input of the
model); `uuid_state` is the `uuid.uuid4` fresh supply: a draw returns
`uuid_state + 1` (never the nil UUID 0) and advances the supply, and is made
only when `correlation_id is None`, exactly as in the source.  `now` is the
server clock value the database writes into the `auto_now_add` column
`timestamp` at insert.  On a storage failure the `except DatabaseError` branch
logs `audit_write_failed` with the model name, action, resource, resource id
and status, and returns `None`; no other outcome exists, i.e. the storage
error never reaches the caller. -/
def create_audit_entry (db_fails : Bool) (uuid_state : Nat) (now : Nat)
    (audit_model : String) (user : Option Nat) (action resource resource_id : String)
    (status : String) (metadata : Option Metadata) (ip_address : Option String)
    (user_agent : String) (correlation_id : Option Nat)
    (extra_fields : Metadata) : AuditResult :=
  let drawn : Nat × Nat :=
    match correlation_id with
    | some c => (c, uuid_state)
    | none => (uuid_state + 1, uuid_state + 1)
  let entry : AuditEntry :=
    { model_name := audit_model
      user := user
      action := action
      resource := resource
      resource_id := resource_id
      status := status
      metadata := match metadata with | some m => m | none => []
      ip_address := ip_address
      user_agent := user_agent
      timestamp := now
      correlation_id := drawn.1
      extra := extra_fields }
  if db_fails then
    { returned := none
      logged := [{ msg := "audit_write_failed", audit_model := audit_model,
                   action := action, resource := resource,
                   resource_id := resource_id, status := status }]
      uuid_state := drawn.2 }
  else
    { returned := some entry, logged := [], uuid_state := drawn.2 }

/-- Model of `audit.services.log_action`: forwards every field to
`create_audit_entry` with `status=AuditStatus.SUCCESS`. -/
def log_action (db_fails : Bool) (uuid_state : Nat) (now : Nat)
    (audit_model : String) (user : Option Nat) (action resource resource_id : String)
    (metadata : Option Metadata) (ip_address : Option String)
    (user_agent : String) (correlation_id : Option Nat)
    (extra_fields : Metadata) : AuditResult :=
  create_audit_entry db_fails uuid_state now audit_model user action resource
    resource_id AuditStatus.SUCCESS metadata ip_address user_agent
    correlation_id extra_fields

/-- Model of `audit.services.log_failure`: forwards every field to
`create_audit_entry` with `status=AuditStatus.FAILURE`. -/
def log_failure (db_fails : Bool) (uuid_state : Nat) (now : Nat)
    (audit_model : String) (user : Option Nat) (action resource resource_id : String)
    (metadata : Option Metadata) (ip_address : Option String)
    (user_agent : String) (correlation_id : Option Nat)
    (extra_fields : Metadata) : AuditResult :=
  create_audit_entry db_fails uuid_state now audit_model user action resource
    resource_id AuditStatus.FAILURE metadata ip_address user_agent
    correlation_id extra_fields

/-- Shared shape of the seed routine's two upserts (`update_or_create` keyed by
`Permission.code`; `get_or_create` + `permissions.set` keyed by `Role.name`).
If a row with string key `k` exists, every such row is rewritten by `upd` (the
unique constraint guarantees there is exactly one); otherwise the fresh row
`mk` is appended. -/
def upsertBy {α : Type} (key : α → String) (upd : α → α) (mk : α) (k : String)
    (l : List α) : List α :=
  if l.any (fun x => key x == k) then
    l.map (fun x => if key x == k then upd x else x)
  else l ++ [mk]

/-- Key `k` is present in the table and every row carrying it satisfies
`good`. -/
def KeyHolds {α : Type} (key : α → String) (k : String) (good : α → Prop)
    (l : List α) : Prop :=
  l.any (fun x => key x == k) = true ∧ ∀ x ∈ l, key x = k → good x

/-- A pass of the seed loop: fold a catalog `L` of seed items over the table,
upserting each item at its key. -/
def foldUpsert {α β : Type} (key : α → String) (keyOf : β → String)
    (updOf : β → α → α) (mkOf : β → α) (L : List β) (l : List α) : List α :=
  L.foldl (fun acc b => upsertBy key (updOf b) (mkOf b) (keyOf b) acc) l

/-- The `PERMISSIONS` catalog of `seed_authorization.py` (code, description). -/
def PERMISSIONS : List (String × String) := [
  ("conciliacion.run", "Ejecutar el proceso de conciliación automática"),
  ("conciliacion.view", "Ver resultados y estado de conciliaciones"),
  ("conciliacion.export", "Exportar reportes de conciliación"),
  ("usuarios.view", "Ver listado de usuarios del sistema"),
  ("usuarios.create", "Crear nuevos usuarios"),
  ("usuarios.edit", "Editar datos de usuarios existentes"),
  ("usuarios.delete", "Eliminar usuarios del sistema"),
  ("reportes.view", "Ver reportes del sistema"),
  ("reportes.export", "Exportar reportes en distintos formatos"),
  ("dashboard.view", "Ver el panel de métricas principal"),
  ("admin.full", "Acceso completo al panel de administración")]

/-- The `ROLES` catalog of `seed_authorization.py` (name, permission codes);
`Administrador` receives every catalog code. -/
def ROLES : List (String × List String) := [
  ("Solo Lectura", ["conciliacion.view", "reportes.view", "dashboard.view"]),
  ("Analista",
    ["conciliacion.run", "conciliacion.view", "reportes.view", "dashboard.view"]),
  ("Supervisor",
    ["conciliacion.run", "conciliacion.view", "conciliacion.export",
     "reportes.view", "reportes.export", "dashboard.view"]),
  ("Administrador", PERMISSIONS.map Prod.fst)]

/-- The relational store the seed command works on: the `Permission` table and
the `Role` table (each role row carrying its many-to-many permission set). -/
structure AuthStore where
  perms : List Permission
  roles : List Role
deriving DecidableEq

/-- One `Permission.objects.update_or_create(code=..., defaults=...)`: rewrite
the description of the row with this unique `code`, or insert the row. -/
def update_or_create_permission (code description : String)
    (ps : List Permission) : List Permission :=
  upsertBy Permission.code (fun p => { p with description := description })
    ⟨code, description⟩ code ps

/-- The first seed loop: one `update_or_create` per catalog permission. -/
def sync_permissions (ps : List Permission) : List Permission :=
  PERMISSIONS.foldl (fun acc pd => update_or_create_permission pd.1 pd.2 acc) ps

/-- One `Role.objects.get_or_create(name=...)` followed by
`role.permissions.set(Permission.objects.filter(code__in=codes))`: the role
row with this unique `name` gets exactly the catalog-listed permissions
present in the permission table (created without them first if absent). -/
def set_role_permissions (perm_table : List Permission) (name : String)
    (codes : List String) (rs : List Role) : List Role :=
  upsertBy Role.name
    (fun r => { r with
      permissions := perm_table.filter (fun p => codes.contains p.code) })
    ⟨name, perm_table.filter (fun p => codes.contains p.code)⟩ name rs

/-- The second seed loop: one `get_or_create` + `permissions.set` per catalog
role, querying the permission table left by the first loop. -/
def sync_roles (perm_table : List Permission) (rs : List Role) : List Role :=
  ROLES.foldl (fun acc rd => set_role_permissions perm_table rd.1 rd.2 acc) rs

/-- Model of `Command.handle` of `seed_authorization` (without `--clear`):
sync the permission catalog, then sync the role catalog against the updated
permission table. -/
def seed_handle (st : AuthStore) : AuthStore :=
  let perms := sync_permissions st.perms
  { perms := perms, roles := sync_roles perms st.roles }

/-- A `users.models.User` row as the role-deletion check sees it: primary key
and the nullable `role` foreign key declared with `on_delete=PROTECT`. -/
structure UserRow where
  id : Nat
  role_id : Option Nat
deriving DecidableEq

/-- The identity-side store: the user table and the role table (role primary
key paired with the role row). -/
structure IdStore where
  users : List UserRow
  roles : List (Nat × Role)
deriving DecidableEq

/-- Error raised by the ORM deletion collector
(`django.db.models.ProtectedError`). -/
inductive DeleteError where
  | protectedErr
deriving DecidableEq

/-- Deleting a `Role` row under the `on_delete=PROTECT` declared on
`User.role` (`users/models.py`): the ORM's deletion collector raises
`ProtectedError` when any user row references the role, aborting with the
store untouched; otherwise it removes exactly that role row. -/
def delete_role (rid : Nat) (st : IdStore) : Except DeleteError IdStore :=
  if st.users.any (fun u => u.role_id == some rid) then
    Except.error DeleteError.protectedErr
  else
    Except.ok { st with roles := st.roles.filter (fun r => !(r.1 == rid)) }

/-- The audit table plus the UUID fresh-supply state the write service
threads. -/
structure AuditState where
  entries : List AuditEntry
  uuid_state : Nat
deriving DecidableEq

/-- The operations of the audit subsystem that can see audit rows: a write
through the service (`create_audit_entry` — appends at most one row), a read
through the list/detail views of `audit.views` (queries only, no mutation),
and the removal of a principal, which the `on_delete=SET_NULL` declared on
`BaseAuditLog.user` turns into nullification of the `user` column of the rows
referencing it. -/
inductive AuditOp where
  | create (db_fails : Bool) (now : Nat) (audit_model : String) (user : Option Nat)
      (action resource resource_id status : String) (metadata : Option Metadata)
      (ip_address : Option String) (user_agent : String)
      (correlation_id : Option Nat) (extra_fields : Metadata)
  | read
  | delete_actor (uid : Nat)

/-- Effect of `on_delete=SET_NULL` on `BaseAuditLog.user`: every row
referencing the removed principal has its `user` column set to null; no other
column and no other row is touched. -/
def set_null_actor (uid : Nat) (entries : List AuditEntry) : List AuditEntry :=
  entries.map (fun e => if e.user == some uid then { e with user := none } else e)

/-- One step of the audit subsystem on the stored rows. -/
def audit_step (op : AuditOp) (st : AuditState) : AuditState :=
  match op with
  | .create db_fails now am u a r rid stt md ip ua cid ex =>
    let res := create_audit_entry db_fails st.uuid_state now am u a r rid stt
      md ip ua cid ex
    { entries := st.entries ++
        (match res.returned with | some e => [e] | none => []),
      uuid_state := res.uuid_state }
  | .read => st
  | .delete_actor uid => { st with entries := set_null_actor uid st.entries }

end Kaizen

namespace Kaizen

theorem upsertBy_establishes {α : Type} (key : α → String) (upd : α → α)
    (mk : α) (k : String) (good : α → Prop) (l : List α)
    (hmk : key mk = k) (hgmk : good mk)
    (hgupd : ∀ x, key x = k → good (upd x))
    (hkupd : ∀ x, key (upd x) = key x) :
    KeyHolds key k good (upsertBy key upd mk k l) := by
  unfold upsertBy
  by_cases h : l.any (fun x => key x == k) = true
  · rw [if_pos h]
    constructor
    · rw [List.any_map]
      have heq : (fun x => key (if key x == k then upd x else x) == k)
          = fun x => key x == k := by
        funext x
        by_cases hx : (key x == k) = true <;> simp [hx, hkupd]
      rw [show ((fun x => key x == k) ∘ fun x => if key x == k then upd x else x)
          = fun x => key (if key x == k then upd x else x) == k from rfl, heq]
      exact h
    · intro y hy hky
      obtain ⟨x, hx, rfl⟩ := List.mem_map.mp hy
      by_cases hxk : (key x == k) = true
      · rw [if_pos hxk]
        exact hgupd x (by simpa using hxk)
      · rw [if_neg hxk] at hky ⊢
        exact absurd (by simpa using hky) (by simpa using hxk)
  · rw [if_neg h]
    constructor
    · rw [List.any_append]
      simp [hmk]
    · intro x hx hkx
      rcases List.mem_append.mp hx with h1 | h1
      · rw [List.any_eq_true] at h
        exact absurd ⟨x, h1, by simpa using hkx⟩ h
      · rw [List.mem_singleton] at h1
        subst h1
        exact hgmk

theorem upsertBy_preserves {α : Type} (key : α → String) (upd : α → α)
    (mk : α) (k' k : String) (good : α → Prop) (l : List α)
    (hne : k' ≠ k) (hold : KeyHolds key k good l)
    (hmk : key mk = k') (hkupd : ∀ x, key (upd x) = key x) :
    KeyHolds key k good (upsertBy key upd mk k' l) := by
  obtain ⟨hany, hgood⟩ := hold
  unfold upsertBy
  by_cases h : l.any (fun x => key x == k') = true
  · rw [if_pos h]
    constructor
    · rw [List.any_map]
      have heq : (fun x => key (if key x == k' then upd x else x) == k)
          = fun x => key x == k := by
        funext x
        by_cases hx : (key x == k') = true <;> simp [hx, hkupd]
      rw [show ((fun x => key x == k) ∘ fun x => if key x == k' then upd x else x)
          = fun x => key (if key x == k' then upd x else x) == k from rfl, heq]
      exact hany
    · intro y hy hky
      obtain ⟨x, hx, rfl⟩ := List.mem_map.mp hy
      by_cases hxk : (key x == k') = true
      · rw [if_pos hxk] at hky ⊢
        rw [hkupd] at hky
        have hxk' : key x = k' := by simpa using hxk
        exact absurd (hxk'.symm.trans hky) hne
      · rw [if_neg hxk] at hky ⊢
        exact hgood x hx hky
  · rw [if_neg h]
    constructor
    · rw [List.any_append, hany]
      rfl
    · intro x hx hkx
      rcases List.mem_append.mp hx with h1 | h1
      · exact hgood x h1 hkx
      · rw [List.mem_singleton] at h1
        subst h1
        exact absurd (hmk.symm.trans hkx) hne

theorem upsertBy_noop {α : Type} (key : α → String) (upd : α → α)
    (mk : α) (k : String) (good : α → Prop) (l : List α)
    (hold : KeyHolds key k good l)
    (hnoop : ∀ x, good x → key x = k → upd x = x) :
    upsertBy key upd mk k l = l := by
  obtain ⟨hany, hgood⟩ := hold
  unfold upsertBy
  rw [if_pos hany]
  have : ∀ x ∈ l, (if key x == k then upd x else x) = x := by
    intro x hx
    by_cases hxk : (key x == k) = true
    · rw [if_pos hxk]
      exact hnoop x (hgood x hx (by simpa using hxk)) (by simpa using hxk)
    · rw [if_neg hxk]
  simpa using List.map_congr_left this


theorem foldUpsert_preserves {α β : Type} (key : α → String) (keyOf : β → String)
    (updOf : β → α → α) (mkOf : β → α) (L : List β) (l : List α)
    (k : String) (good : α → Prop)
    (hold : KeyHolds key k good l)
    (hne : ∀ b ∈ L, keyOf b ≠ k)
    (hmk : ∀ b ∈ L, key (mkOf b) = keyOf b)
    (hkupd : ∀ b ∈ L, ∀ x, key (updOf b x) = key x) :
    KeyHolds key k good (foldUpsert key keyOf updOf mkOf L l) := by
  induction L generalizing l with
  | nil => exact hold
  | cons b L ih =>
    exact ih _ (upsertBy_preserves key (updOf b) (mkOf b) (keyOf b) k good l
        (hne b (List.mem_cons_self b L)) hold (hmk b (List.mem_cons_self b L))
        (hkupd b (List.mem_cons_self b L)))
      (fun b' hb' => hne b' (List.mem_cons_of_mem b hb'))
      (fun b' hb' => hmk b' (List.mem_cons_of_mem b hb'))
      (fun b' hb' => hkupd b' (List.mem_cons_of_mem b hb'))

theorem foldUpsert_establishes {α β : Type} (key : α → String) (keyOf : β → String)
    (updOf : β → α → α) (mkOf : β → α) (goodOf : β → α → Prop)
    (L : List β) (l : List α)
    (hnd : (L.map keyOf).Nodup)
    (hmk : ∀ b, key (mkOf b) = keyOf b)
    (hgmk : ∀ b, goodOf b (mkOf b))
    (hgupd : ∀ b, ∀ x, key x = keyOf b → goodOf b (updOf b x))
    (hkupd : ∀ b, ∀ x, key (updOf b x) = key x) :
    ∀ b ∈ L, KeyHolds key (keyOf b) (goodOf b) (foldUpsert key keyOf updOf mkOf L l) := by
  induction L generalizing l with
  | nil => intro b hb; exact absurd hb (List.not_mem_nil b)
  | cons b0 L ih =>
    intro b hb
    rw [List.map_cons, List.nodup_cons] at hnd
    rcases List.mem_cons.mp hb with rfl | hb'
    · refine foldUpsert_preserves key keyOf updOf mkOf L _ (keyOf b) (goodOf b)
        (upsertBy_establishes key (updOf b) (mkOf b) (keyOf b) (goodOf b) l
          (hmk b) (hgmk b) (hgupd b) (hkupd b))
        ?_ (fun b' _ => hmk b') (fun b' _ => hkupd b')
      intro b' hb' heq
      exact hnd.1 (heq ▸ List.mem_map_of_mem keyOf hb')
    · exact ih (upsertBy key (updOf b0) (mkOf b0) (keyOf b0) l) hnd.2 b hb'

theorem foldUpsert_noop {α β : Type} (key : α → String) (keyOf : β → String)
    (updOf : β → α → α) (mkOf : β → α) (goodOf : β → α → Prop)
    (L : List β) (l : List α)
    (hold : ∀ b ∈ L, KeyHolds key (keyOf b) (goodOf b) l)
    (hnoop : ∀ b, ∀ x, goodOf b x → key x = keyOf b → updOf b x = x) :
    foldUpsert key keyOf updOf mkOf L l = l := by
  induction L with
  | nil => rfl
  | cons b0 L ih =>
    have hstep : upsertBy key (updOf b0) (mkOf b0) (keyOf b0) l = l :=
      upsertBy_noop key (updOf b0) (mkOf b0) (keyOf b0) (goodOf b0) l
        (hold b0 (List.mem_cons_self b0 L)) (hnoop b0)
    show foldUpsert key keyOf updOf mkOf L
        (upsertBy key (updOf b0) (mkOf b0) (keyOf b0) l) = l
    rw [hstep]
    exact ih (fun b hb => hold b (List.mem_cons_of_mem b0 hb))

/-- Running one seed pass over the result of a seed pass changes nothing,
provided the catalog keys are distinct and the upserts are key-preserving and
value-stable. -/
theorem foldUpsert_idem {α β : Type} (key : α → String) (keyOf : β → String)
    (updOf : β → α → α) (mkOf : β → α) (goodOf : β → α → Prop)
    (L : List β) (l : List α)
    (hnd : (L.map keyOf).Nodup)
    (hmk : ∀ b, key (mkOf b) = keyOf b)
    (hgmk : ∀ b, goodOf b (mkOf b))
    (hgupd : ∀ b, ∀ x, key x = keyOf b → goodOf b (updOf b x))
    (hkupd : ∀ b, ∀ x, key (updOf b x) = key x)
    (hnoop : ∀ b, ∀ x, goodOf b x → key x = keyOf b → updOf b x = x) :
    foldUpsert key keyOf updOf mkOf L (foldUpsert key keyOf updOf mkOf L l) =
      foldUpsert key keyOf updOf mkOf L l :=
  foldUpsert_noop key keyOf updOf mkOf goodOf L _
    (foldUpsert_establishes key keyOf updOf mkOf goodOf L l hnd hmk hgmk hgupd hkupd)
    hnoop


theorem perm_loop_eq_foldUpsert (L : List (String × String)) (ps : List Permission) :
    List.foldl (fun acc pd => update_or_create_permission pd.1 pd.2 acc) ps L =
      foldUpsert Permission.code Prod.fst
        (fun pd p => { p with description := pd.2 }) (fun pd => ⟨pd.1, pd.2⟩)
        L ps :=
  rfl

theorem role_loop_eq_foldUpsert (p : List Permission)
    (L : List (String × List String)) (rs : List Role) :
    List.foldl (fun acc rd => set_role_permissions p rd.1 rd.2 acc) rs L =
      foldUpsert Role.name Prod.fst
        (fun rd r => { r with
          permissions := p.filter (fun pr => rd.2.contains pr.code) })
        (fun rd => ⟨rd.1, p.filter (fun pr => rd.2.contains pr.code)⟩)
        L rs :=
  rfl

set_option maxHeartbeats 800000 in
theorem sync_permissions_idem (ps : List Permission) :
    sync_permissions (sync_permissions ps) = sync_permissions ps := by
  unfold sync_permissions
  rw [perm_loop_eq_foldUpsert, perm_loop_eq_foldUpsert]
  apply foldUpsert_idem Permission.code Prod.fst
    (fun pd p => { p with description := pd.2 }) (fun pd => ⟨pd.1, pd.2⟩)
    (fun pd p => p.description = pd.2) PERMISSIONS ps
  · decide
  · intro b; rfl
  · intro b; rfl
  · intro b x h; rfl
  · intro b x; rfl
  · intro b x hgood hkey; cases x; simp only at hgood; rw [hgood]

set_option maxHeartbeats 800000 in
theorem sync_roles_idem (p : List Permission) (rs : List Role) :
    sync_roles p (sync_roles p rs) = sync_roles p rs := by
  unfold sync_roles
  rw [role_loop_eq_foldUpsert, role_loop_eq_foldUpsert]
  apply foldUpsert_idem Role.name Prod.fst
    (fun rd r => { r with
      permissions := p.filter (fun pr => rd.2.contains pr.code) })
    (fun rd => ⟨rd.1, p.filter (fun pr => rd.2.contains pr.code)⟩)
    (fun rd r => r.permissions = p.filter (fun pr => rd.2.contains pr.code))
    ROLES rs
  · decide
  · intro b; rfl
  · intro b; rfl
  · intro b x h; rfl
  · intro b x; rfl
  · intro b x hgood hkey; cases x; simp only at hgood; rw [hgood]

set_option maxHeartbeats 800000 in
/-- C7: running the seed routine twice leaves the store exactly as after one
run — in particular the Permission and Role row counts are unchanged and no
duplicate rows appear (upserts keyed by the unique `code` / `name`). -/
theorem seed_idempotent (st : AuthStore) :
    seed_handle (seed_handle st) = seed_handle st ∧
    (seed_handle (seed_handle st)).perms.length = (seed_handle st).perms.length ∧
    (seed_handle (seed_handle st)).roles.length = (seed_handle st).roles.length := by
  have hmain : seed_handle (seed_handle st) = seed_handle st := by
    simp only [seed_handle]
    rw [sync_permissions_idem, sync_roles_idem]
  exact ⟨hmain, by rw [hmain], by rw [hmain]⟩

/-- C1: `user_has_permission` and `get_user_permissions` fail closed: a missing,
unauthenticated, inactive or role-less principal gets `false` and `[]` for every
permission code, and (being total Lean functions) neither raises. -/
theorem fail_closed (user : Option User) (code : String)
    (h : user = none ∨ ∃ u, user = some u ∧
      (u.is_authenticated = false ∨ u.is_active = false ∨ u.role = none)) :
    user_has_permission user code = false ∧ get_user_permissions user = [] := by
  rcases h with h | ⟨u, rfl, h⟩
  · subst h; exact ⟨rfl, rfl⟩
  · rcases h with h | h | h <;>
      simp [user_has_permission, get_user_permissions, h]

/-- Witness for C1 at a concrete role-less principal. -/
theorem fail_closed_witness :
    user_has_permission (some ⟨true, true, none⟩) "conciliacion.run" = false ∧
      get_user_permissions (some ⟨true, true, none⟩) = [] :=
  fail_closed (some ⟨true, true, none⟩) "conciliacion.run"
    (Or.inr ⟨⟨true, true, none⟩, rfl, Or.inr (Or.inr rfl)⟩)

/-- C2: for an authenticated, active principal with a role, the decision is
exactly membership of a permission whose `code` is string-equal to the query
(case-sensitive, no wildcards, no hierarchy). -/
theorem exact_match (u : User) (r : Role) (code : String)
    (hauth : u.is_authenticated = true) (hact : u.is_active = true)
    (hrole : u.role = some r) :
    (user_has_permission (some u) code = true ↔
      ∃ p ∈ r.permissions, p.code = code) := by
  simp [user_has_permission, hauth, hact, hrole, List.any_eq_true]

/-- Witness for C2: a role holding only `"Conciliacion.Run"` does not satisfy a
check for `"conciliacion.run"`, and does satisfy the exact-case check. -/
theorem exact_match_witness :
    (user_has_permission
        (some ⟨true, true, some ⟨"Analista", [⟨"Conciliacion.Run", "d"⟩]⟩⟩)
        "conciliacion.run" = true ↔
      ∃ p ∈ [(⟨"Conciliacion.Run", "d"⟩ : Permission)], p.code = "conciliacion.run") :=
  exact_match ⟨true, true, some ⟨"Analista", [⟨"Conciliacion.Run", "d"⟩]⟩⟩
    ⟨"Analista", [⟨"Conciliacion.Run", "d"⟩]⟩ "conciliacion.run" rfl rfl rfl


/-- C3: the any-gate grants iff at least one code passes the decision function,
the all-gate grants iff every code passes, and both are invariant under
permutation of the code list (unordered OR/AND). -/
theorem gates_any_all (user : Option User) (codes : List String) :
    (hasAnyPermission codes user = true ↔
      ∃ c ∈ codes, user_has_permission user c = true) ∧
    (hasAllPermissions codes user = true ↔
      ∀ c ∈ codes, user_has_permission user c = true) ∧
    (∀ codes₂, codes.Perm codes₂ →
      hasAnyPermission codes user = hasAnyPermission codes₂ user ∧
      hasAllPermissions codes user = hasAllPermissions codes₂ user) := by
  refine ⟨by simp [hasAnyPermission, List.any_eq_true],
    by simp [hasAllPermissions, List.all_eq_true], ?_⟩
  intro codes₂ hperm
  constructor
  · simp only [hasAnyPermission]
    rcases hany : codes₂.any (fun code => user_has_permission user code) with _ | _
    · simp only [List.any_eq_false] at hany ⊢
      intro c hc
      exact hany c (hperm.mem_iff.mp hc)
    · simp only [List.any_eq_true] at hany ⊢
      obtain ⟨c, hc, hok⟩ := hany
      exact ⟨c, hperm.mem_iff.mpr hc, hok⟩
  · simp only [hasAllPermissions]
    rcases hall : codes₂.all (fun code => user_has_permission user code) with _ | _
    · simp only [List.all_eq_false] at hall ⊢
      obtain ⟨c, hc, hko⟩ := hall
      exact ⟨c, hperm.mem_iff.mpr hc, hko⟩
    · simp only [List.all_eq_true] at hall ⊢
      intro c hc
      exact hall c (hperm.mem_iff.mp hc)

/-- Witness for C3 at a concrete user and two-code list, permuted. -/
theorem gates_any_all_witness :
    (hasAnyPermission ["a.x", "b.y"] none = true ↔
      ∃ c ∈ ["a.x", "b.y"], user_has_permission none c = true) ∧
    (hasAnyPermission ["a.x", "b.y"] none = hasAnyPermission ["b.y", "a.x"] none ∧
      hasAllPermissions ["a.x", "b.y"] none = hasAllPermissions ["b.y", "a.x"] none) :=
  ⟨(gates_any_all none ["a.x", "b.y"]).1,
    (gates_any_all none ["a.x", "b.y"]).2.2 ["b.y", "a.x"] (by decide)⟩

/-- C10: with an empty code list the two gates are asymmetric: the any-gate
denies every principal while the all-gate grants unconditionally, even for a
missing, unauthenticated or role-less principal. -/
theorem empty_gates (user : Option User) :
    hasAnyPermission [] user = false ∧ hasAllPermissions [] user = true :=
  ⟨rfl, rfl⟩


/-- C4: when the storage insert raises `DatabaseError`, `create_audit_entry`
(and with it `log_action` and `log_failure`) returns `none`, emits exactly one
internal `audit_write_failed` record carrying the action, resource, target
model name and status, and — being total — never propagates the storage error
to the caller. -/
theorem audit_fail_silent (uuid_state now : Nat) (audit_model : String)
    (user : Option Nat) (action resource resource_id status : String)
    (metadata : Option Metadata) (ip_address : Option String)
    (user_agent : String) (correlation_id : Option Nat) (extra_fields : Metadata) :
    (create_audit_entry true uuid_state now audit_model user action resource
        resource_id status metadata ip_address user_agent correlation_id
        extra_fields).returned = none ∧
    (create_audit_entry true uuid_state now audit_model user action resource
        resource_id status metadata ip_address user_agent correlation_id
        extra_fields).logged =
      [{ msg := "audit_write_failed", audit_model := audit_model,
         action := action, resource := resource,
         resource_id := resource_id, status := status }] ∧
    (log_action true uuid_state now audit_model user action resource resource_id
        metadata ip_address user_agent correlation_id extra_fields).returned = none ∧
    (log_failure true uuid_state now audit_model user action resource resource_id
        metadata ip_address user_agent correlation_id extra_fields).returned = none := by
  cases correlation_id <;>
    simp [create_audit_entry, log_action, log_failure]

/-- C5: `log_action` is exactly `create_audit_entry` with `status` forced to
`SUCCESS`, and `log_failure` exactly `create_audit_entry` with `status` forced
to `FAILURE`; every other field is forwarded identically. -/
theorem wrappers_force_status (db_fails : Bool) (uuid_state now : Nat)
    (audit_model : String) (user : Option Nat)
    (action resource resource_id : String) (metadata : Option Metadata)
    (ip_address : Option String) (user_agent : String)
    (correlation_id : Option Nat) (extra_fields : Metadata) :
    log_action db_fails uuid_state now audit_model user action resource resource_id
        metadata ip_address user_agent correlation_id extra_fields =
      create_audit_entry db_fails uuid_state now audit_model user action resource
        resource_id AuditStatus.SUCCESS metadata ip_address user_agent
        correlation_id extra_fields ∧
    log_failure db_fails uuid_state now audit_model user action resource resource_id
        metadata ip_address user_agent correlation_id extra_fields =
      create_audit_entry db_fails uuid_state now audit_model user action resource
        resource_id AuditStatus.FAILURE metadata ip_address user_agent
        correlation_id extra_fields :=
  ⟨rfl, rfl⟩

/-- C6: a `log_action` call carrying only `action` and `resource` (all other
parameters at their Python defaults) persists an entry with status `SUCCESS`,
a null actor and a freshly drawn non-nil `correlation_id`; a second such call
draws a different `correlation_id`; an explicitly supplied `correlation_id` is
stored verbatim. -/
theorem audit_default_call (s t t2 : Nat) (a r a2 r2 : String) :
    ∃ e1,
      (log_action false s t ("AuditLog") none a r ("") none none ("") none []).returned
        = some e1 ∧
      e1.status = AuditStatus.SUCCESS ∧ e1.user = none ∧ e1.correlation_id ≠ 0 ∧
      (∃ e2,
        (log_action false
          (log_action false s t ("AuditLog") none a r ("") none none ("") none []).uuid_state
          t2 ("AuditLog") none a2 r2 ("") none none ("") none []).returned = some e2 ∧
        e2.correlation_id ≠ e1.correlation_id) ∧
      (∀ c : Nat,
        ∃ e3,
          (log_action false s t ("AuditLog") none a r ("") none none ("") (some c) []).returned
            = some e3 ∧
          e3.correlation_id = c) := by
  refine ⟨⟨"AuditLog", none, a, r, "", AuditStatus.SUCCESS, [], none, "", t, s + 1, []⟩,
    rfl, rfl, rfl, Nat.succ_ne_zero s, ⟨?_, ?_⟩⟩
  · exact ⟨⟨"AuditLog", none, a2, r2, "", AuditStatus.SUCCESS, [], none, "", t2, s + 2, []⟩,
      rfl, by simp⟩
  · intro c
    exact ⟨⟨"AuditLog", none, a, r, "", AuditStatus.SUCCESS, [], none, "", t, c, []⟩,
      rfl, rfl⟩


/-- C8: deleting a role referenced by at least one user is rejected with a
caller-visible `ProtectedError` (so the role row and all users stay as they
were); deleting an unreferenced role succeeds, keeps the user table, removes
every row with that role id and keeps every other role row. -/
theorem role_delete_protect (rid : Nat) (st : IdStore) :
    ((∃ u ∈ st.users, u.role_id = some rid) →
      delete_role rid st = Except.error DeleteError.protectedErr) ∧
    ((∀ u ∈ st.users, u.role_id ≠ some rid) →
      ∃ st₂, delete_role rid st = Except.ok st₂ ∧
        st₂.users = st.users ∧
        (∀ r ∈ st₂.roles, r.1 ≠ rid) ∧
        (∀ r ∈ st.roles, r.1 ≠ rid → r ∈ st₂.roles) ∧
        (∀ r ∈ st₂.roles, r ∈ st.roles)) := by
  constructor
  · intro ⟨u, hu, hur⟩
    unfold delete_role
    rw [if_pos]
    rw [List.any_eq_true]
    exact ⟨u, hu, by simp [hur]⟩
  · intro hnone
    unfold delete_role
    rw [if_neg]
    · refine ⟨_, rfl, rfl, ?_, ?_, ?_⟩
      · intro r hr
        have := (List.mem_filter.mp hr).2
        simpa using this
      · intro r hr hne
        exact List.mem_filter.mpr ⟨hr, by simpa using hne⟩
      · intro r hr
        exact (List.mem_filter.mp hr).1
    · rw [List.any_eq_true]
      rintro ⟨u, hu, hur⟩
      exact hnone u hu (by simpa using hur)

/-- Witness for C8: a role referenced by a user cannot be deleted; an
unreferenced role can. -/
theorem role_delete_protect_witness :
    delete_role 5 ⟨[⟨1, some 5⟩], [(5, ⟨"Analista", []⟩)]⟩
        = Except.error DeleteError.protectedErr ∧
      ∃ st₂, delete_role 7 ⟨[⟨1, some 5⟩], [(7, ⟨"Supervisor", []⟩)]⟩
          = Except.ok st₂ ∧
        st₂.users = [⟨1, some 5⟩] ∧
        (∀ r ∈ st₂.roles, r.1 ≠ 7) ∧
        (∀ r ∈ [((7 : Nat), (⟨"Supervisor", []⟩ : Role))], r.1 ≠ 7 → r ∈ st₂.roles) ∧
        (∀ r ∈ st₂.roles, r ∈ [((7 : Nat), (⟨"Supervisor", []⟩ : Role))]) :=
  ⟨(role_delete_protect 5 ⟨[⟨1, some 5⟩], [(5, ⟨"Analista", []⟩)]⟩).1
      ⟨⟨1, some 5⟩, by simp, rfl⟩,
    (role_delete_protect 7 ⟨[⟨1, some 5⟩], [(7, ⟨"Supervisor", []⟩)]⟩).2
      (by intro u hu; simp at hu; simp [hu])⟩


/-- C9: a stored audit row is never rewritten by a write or a read; the only
mutation an existing row undergoes is actor deletion, which replaces `user`
with null on exactly the rows referencing the deleted principal and leaves
every other field of the row — and every other row — unchanged. -/
theorem audit_rows_immutable (op : AuditOp) (st : AuditState)
    (i : Nat) (e : AuditEntry) (h : st.entries[i]? = some e) :
    (audit_step op st).entries[i]? =
      some (match op with
        | .delete_actor uid =>
          if e.user == some uid then { e with user := none } else e
        | _ => e) := by
  have hlen : i < st.entries.length := (List.getElem?_eq_some.mp h).1
  cases op with
  | create db_fails now am u a r rid stt md ip ua cid ex =>
    simp only [audit_step]
    rw [List.getElem?_append]
    simp [hlen, h]
  | read => exact h
  | delete_actor uid =>
    simp only [audit_step, set_null_actor]
    rw [List.getElem?_map, h]
    rfl

/-- Witness for C9: deleting actor 3 nullifies `user` on the row that
references actor 3 and only changes that field. -/
theorem audit_rows_immutable_witness :
    (audit_step (AuditOp.delete_actor 3)
        ⟨[⟨"AuditLog", some 3, "user.created", "user", "9", "SUCCESS", [],
            none, "", 0, 1, []⟩], 1⟩).entries[0]? =
      some (if (some 3 : Option Nat) == some 3 then
        { (⟨"AuditLog", some 3, "user.created", "user", "9", "SUCCESS", [],
            none, "", 0, 1, []⟩ : AuditEntry) with user := none }
      else
        ⟨"AuditLog", some 3, "user.created", "user", "9", "SUCCESS", [],
          none, "", 0, 1, []⟩) :=
  audit_rows_immutable (AuditOp.delete_actor 3)
    ⟨[⟨"AuditLog", some 3, "user.created", "user", "9", "SUCCESS", [],
        none, "", 0, 1, []⟩], 1⟩ 0
    ⟨"AuditLog", some 3, "user.created", "user", "9", "SUCCESS", [],
      none, "", 0, 1, []⟩ rfl

end Kaizen
